import Mathlib

/-!
Verification of the `fibext` crate (src/lib.rs): a generic Fibonacci
sequence generator over unsigned integer types, with a checked-overflow
policy (feature "checked-overflow") and a wrapping policy (default).

Machine integers of width `w` are embedded as natural numbers together
with an explicit width parameter; a value fits iff it is `< 2 ^ w`.
The arbitrary-precision type `BigUint` is embedded as plain `Nat`.
-/

/-- The single error kind of the library (`ArithmeticError` in lib.rs). -/
inductive ArithmeticError where
  | Overflow
deriving DecidableEq, Repr

/-- Rust's inherent `checked_add` on a `w`-bit unsigned integer:
`some (a + b)` when the sum is representable, `none` on overflow. -/
def checked_add (w a b : Nat) : Option Nat :=
  if a + b < 2 ^ w then some (a + b) else none

/-- `safe_add` from the `impl_unsigned_integer` macro (lib.rs:71-73):
`self.checked_add(rhs).ok_or(ArithmeticError::Overflow)`. -/
def safe_add (w a b : Nat) : Except ArithmeticError Nat :=
  match checked_add w a b with
  | some v => Except.ok v
  | none => Except.error ArithmeticError.Overflow

/-- `unchecked_add` from the `impl_unsigned_integer` macro (lib.rs:78-80):
wrapping addition, i.e. the sum reduced modulo `2 ^ w`. -/
def unchecked_add (w a b : Nat) : Nat :=
  (a + b) % 2 ^ w

/-- `safe_add` of the `BigUint` instance (lib.rs:98-100): always `Ok(self + rhs)`. -/
def biguint_safe_add (a b : Nat) : Except ArithmeticError Nat :=
  Except.ok (a + b)

/-- `unchecked_add` of the `BigUint` instance (lib.rs:103-105): plain `self + rhs`. -/
def biguint_unchecked_add (a b : Nat) : Nat :=
  a + b

/-- The `Fibonacci<T>` struct (lib.rs:111-114): the generator's state. -/
structure Fibonacci where
  current : Nat
  next : Nat
deriving DecidableEq, Repr

/-- `Fibonacci::new` (lib.rs:118-123): seeds `current = 0`, `next = 1`. -/
def Fibonacci.new : Fibonacci :=
  { current := 0, next := 1 }

/-- `Iterator::next` under the "checked-overflow" feature (lib.rs:140-152),
for a `w`-bit element type.  The overflow check happens before any field is
mutated: on `Err(Overflow)` the function returns `None` with the state
untouched; on success it emits the old `current`, shifts `next` into
`current` and stores the sum in `next`. -/
def stepChecked (w : Nat) (s : Fibonacci) : Option Nat × Fibonacci :=
  match safe_add w s.current s.next with
  | Except.error ArithmeticError.Overflow => (none, s)
  | Except.ok value => (some s.current, { current := s.next, next := value })

/-- `Iterator::next` without "checked-overflow" and with "std"
(lib.rs:155-162), for a `w`-bit element type, with the source's exact
statement order: `self.current` is reassigned to the old `next` BEFORE
`self.next` is recomputed, so the new `next` is computed from the already
updated `current` field (old `next`) and the not-yet-updated `next` field
(also old `next`). -/
def stepWrapping (w : Nat) (s : Fibonacci) : Option Nat × Fibonacci :=
  let current := s.current
  let s := { s with current := s.next }
  let s := { s with next := unchecked_add w s.current s.next }
  (some current, s)

/-- `Iterator::next` under "checked-overflow" for the `BigUint` element
type (lib.rs:140-152 with the instance of lib.rs:98-100). -/
def stepCheckedBig (s : Fibonacci) : Option Nat × Fibonacci :=
  match biguint_safe_add s.current s.next with
  | Except.error ArithmeticError.Overflow => (none, s)
  | Except.ok value => (some s.current, { current := s.next, next := value })

/-- `Iterator::next` without "checked-overflow" for the `BigUint` element
type (lib.rs:155-162 with the instance of lib.rs:103-105), with the same
statement order as `stepWrapping`. -/
def stepWrappingBig (s : Fibonacci) : Option Nat × Fibonacci :=
  let current := s.current
  let s := { s with current := s.next }
  let s := { s with next := biguint_unchecked_add s.current s.next }
  (some current, s)

/-- The generator's state after `n` calls of the given `next` implementation. -/
def stateAfter (step : Fibonacci → Option Nat × Fibonacci) : Nat → Fibonacci → Fibonacci
  | 0, s => s
  | n + 1, s => (step (stateAfter step n s)).2

/-- The value returned by the `(n+1)`-st call of `next` (index `n`, counting
from 0) when iterating the given `next` implementation from state `s`. -/
def pullAt (step : Fibonacci → Option Nat × Fibonacci) (n : Nat) (s : Fibonacci) : Option Nat :=
  (step (stateAfter step n s)).1

/-- The mathematical Fibonacci sequence, seeded F(0) = 0, F(1) = 1. -/
def fib : Nat → Nat
  | 0 => 0
  | 1 => 1
  | n + 2 => fib n + fib (n + 1)

/-- Modelled from the spec: `fill_fibonacci_sequence` is named only in the
spec (§4.3, §8) and is absent from src/.  Per the spec it takes a mutable
fixed-length buffer, "constructs a fresh generator internally and writes N
consecutive terms into the sequence in order", requiring that overflow
cannot occur before N terms are produced.  It is modelled as overwriting
each of the buffer's `buf.length` slots, in order, with the successive
values pulled from a fresh generator over a `w`-bit element type. -/
def fill_fibonacci_sequence (w : Nat) (buf : List Nat) : List Nat :=
  (List.range buf.length).map
    (fun i => (pullAt (stepChecked w) i Fibonacci.new).getD 0)

/-! ## Helper lemmas -/

/-- A checked pull that returns `None` leaves the state exactly as it was. -/
theorem stepChecked_none_eq (w : Nat) (s : Fibonacci)
    (h : (stepChecked w s).1 = none) : stepChecked w s = (none, s) := by
  unfold stepChecked at h ⊢
  cases hsa : safe_add w s.current s.next with
  | error e => cases e; rfl
  | ok v => rw [hsa] at h; simp at h

/-- Once a checked pull fails, the state is a fixed point of the step. -/
theorem stateAfter_of_none (w : Nat) (s : Fibonacci)
    (h : (stepChecked w s).1 = none) (n : Nat) :
    stateAfter (stepChecked w) n s = s := by
  induction n with
  | zero => rfl
  | succ n ih =>
    show (stepChecked w (stateAfter (stepChecked w) n s)).2 = s
    rw [ih, stepChecked_none_eq w s h]

/-- Once a checked pull fails, every later pull from that state fails too. -/
theorem pullAt_of_none (w : Nat) (s : Fibonacci)
    (h : (stepChecked w s).1 = none) (n : Nat) :
    pullAt (stepChecked w) n s = none := by
  unfold pullAt
  rw [stateAfter_of_none w s h n, h]

/-- Iterating `m + n` steps is iterating `m` steps, then `n` more. -/
theorem stateAfter_add (step : Fibonacci → Option Nat × Fibonacci)
    (m n : Nat) (s : Fibonacci) :
    stateAfter step (m + n) s = stateAfter step n (stateAfter step m s) := by
  induction n with
  | zero => rfl
  | succ n ih =>
    show (step (stateAfter step (m + n) s)).2 = _
    rw [ih]
    rfl

/-- For the 8-bit checked generator, every pull from index 12 on is `none`. -/
theorem checked8_none_of_ge12 (n : Nat) (h : 12 ≤ n) :
    pullAt (stepChecked 8) n Fibonacci.new = none := by
  obtain ⟨k, rfl⟩ := Nat.exists_eq_add_of_le h
  unfold pullAt
  rw [stateAfter_add]
  have h12 : stateAfter (stepChecked 8) 12 Fibonacci.new
      = { current := 144, next := 233 } := by decide
  rw [h12]
  have hnone : (stepChecked 8 { current := 144, next := 233 }).1 = none := by decide
  rw [stateAfter_of_none 8 _ hnone k, hnone]

/-! ## Claims -/

/-- C1: the claim asserts that under BOTH policies the first pulled value is
0, the second 1, and each later value is the sum of the previous two, over
the first 7 terms.  The checked branch satisfies this, but the wrapping
branch (lib.rs:155-162) recomputes `next` from the already reassigned
`current` field, so it emits 0, 1, 2, 4, 8, 16, 32: its third value is 2,
not 1 + 0.  This theorem evaluates the code at the failing input. -/
theorem C1_first_terms_eval :
    ((List.range 7).map fun i => pullAt (stepChecked 8) i Fibonacci.new)
      = [some 0, some 1, some 1, some 2, some 3, some 5, some 8] ∧
    ((List.range 7).map fun i => pullAt (stepWrapping 8) i Fibonacci.new)
      = [some 0, some 1, some 2, some 4, some 8, some 16, some 32] ∧
    (2 : Nat) ≠ 1 + 0 := by
  refine ⟨by decide, by decide, by decide⟩

/-- C2: the claim asserts every successful advance sets `next` to the sum
of the old `current` and the old `next` (wrapping sum under the wrapping
policy).  The constructor seeds (0, 1) as claimed, but in the wrapping
branch the advance from the reachable state (current = 1, next = 2) sets
`next` to 4 = 2 + 2, not to the claimed wrapping sum 1 + 2 = 3.  This
theorem evaluates the code at the failing input. -/
theorem C2_wrapping_advance_eval :
    Fibonacci.new = { current := 0, next := 1 } ∧
    stateAfter (stepWrapping 32) 1 Fibonacci.new = { current := 1, next := 2 } ∧
    stepWrapping 32 { current := 1, next := 2 }
      = (some 1, { current := 2, next := 4 }) ∧
    (4 : Nat) ≠ unchecked_add 32 1 2 := by
  refine ⟨by decide, by decide, by decide, by decide⟩

/-- C3 counterexample: the claim says each of the first 255 pulls on a
fresh checked u8 generator succeeds, but already the 13th pull (index 12,
well below 255) signals exhaustion: after emitting F(0)..F(11) the state
is (144, 233) and 144 + 233 = 377 overflows u8. -/
theorem C3_counterexample :
    pullAt (stepChecked 8) 12 Fibonacci.new = none ∧ 12 < 255 := by
  refine ⟨by decide, by decide⟩

/-- C3 amended: under the checked policy with the 8-bit element type, the
first 12 pulls succeed, and every pull from the 13th on (in particular the
256th) signals exhaustion. -/
theorem C3_amended_thm :
    (∀ i, i < 12 → (pullAt (stepChecked 8) i Fibonacci.new).isSome = true) ∧
    ∀ n, 12 ≤ n → pullAt (stepChecked 8) n Fibonacci.new = none := by
  exact ⟨by decide, checked8_none_of_ge12⟩

/-- C3 witness: the 256th pull (index 255) signals exhaustion. -/
theorem C3_witness : pullAt (stepChecked 8) 255 Fibonacci.new = none :=
  C3_amended_thm.2 255 (by norm_num)

/-- C4: under the checked policy with the 8-bit element type, exactly the
first 12 pulls return values, namely 0, 1, 1, 2, 3, 5, 8, 13, 21, 34, 55,
89; the 13th pull returns none, and the representable Fibonacci terms 144
and 233 are never emitted. -/
theorem C4_checked8_values :
    ((List.range 12).map fun i => pullAt (stepChecked 8) i Fibonacci.new)
      = [some 0, some 1, some 1, some 2, some 3, some 5, some 8, some 13,
         some 21, some 34, some 55, some 89] ∧
    pullAt (stepChecked 8) 12 Fibonacci.new = none ∧
    ∀ n, pullAt (stepChecked 8) n Fibonacci.new ≠ some 144 ∧
      pullAt (stepChecked 8) n Fibonacci.new ≠ some 233 := by
  refine ⟨by decide, by decide, fun n => ?_⟩
  rcases Nat.lt_or_ge n 12 with h | h
  · exact (by decide :
      ∀ m, m < 12 → pullAt (stepChecked 8) m Fibonacci.new ≠ some 144 ∧
        pullAt (stepChecked 8) m Fibonacci.new ≠ some 233) n h
  · rw [checked8_none_of_ge12 n h]
    exact ⟨by decide, by decide⟩

/-- C4 witness: the 4th pull in particular does not emit 144. -/
theorem C4_witness : pullAt (stepChecked 8) 3 Fibonacci.new ≠ some 144 :=
  (C4_checked8_values.2.2 3).1

/-- C5: under the checked policy, for every width and every state, once a
pull signals exhaustion every subsequent pull on the same generator also
signals exhaustion: the overflow test fails before any field is mutated,
so the state can never change again. -/
theorem C5_exhaustion_permanent (w n : Nat) (s : Fibonacci)
    (h : (stepChecked w s).1 = none) :
    pullAt (stepChecked w) n s = none :=
  pullAt_of_none w s h n

/-- C5 witness: from the exhausted u8 state (144, 233), the pull 7 steps
later still signals exhaustion. -/
theorem C5_witness :
    (stepChecked 8 { current := 144, next := 233 }).1 = none ∧
    pullAt (stepChecked 8) 7 { current := 144, next := 233 } = none :=
  ⟨by decide, C5_exhaustion_permanent 8 7 _ (by decide)⟩

/-- C6: under the checked policy, a pull that signals exhaustion leaves
both fields of the generator exactly unchanged, because the overflow is
detected before any field is mutated. -/
theorem C6_failed_pull_state_unchanged (w : Nat) (s : Fibonacci)
    (h : (stepChecked w s).1 = none) :
    (stepChecked w s).2 = s := by
  rw [stepChecked_none_eq w s h]

/-- C6 witness: the failed pull at the u8 state (144, 233) leaves the
state as (144, 233). -/
theorem C6_witness :
    (stepChecked 8 { current := 144, next := 233 }).1 = none ∧
    (stepChecked 8 { current := 144, next := 233 }).2
      = { current := 144, next := 233 } :=
  ⟨by decide, C6_failed_pull_state_unchanged 8 _ (by decide)⟩

/-- C7: the claim asserts that under the wrapping policy with the 8-bit
element type every pull returns a value (true: the wrapping branch always
returns `Some`) and that the n-th value equals fib n mod 256.  The latter
fails at n = 2: the code emits 2, while fib 2 mod 256 = 1, because the
wrapping branch recomputes `next` from the already reassigned `current`.
This theorem evaluates the code at the failing input. -/
theorem C7_wrapping8_eval :
    (∀ n s, (pullAt (stepWrapping 8) n s).isSome = true) ∧
    pullAt (stepWrapping 8) 2 Fibonacci.new = some 2 ∧
    fib 2 % 2 ^ 8 = 1 := by
  exact ⟨fun n s => rfl, by decide, by decide⟩

/-- C8: for every width, checked addition returns the mathematical sum
whenever it is representable (at most 2^w - 1) and the Overflow error
otherwise; in particular over u8, 1 + 1 = 2 and 255 + 1 overflows. -/
theorem C8_safe_add_spec (w a b : Nat) :
    (a + b ≤ 2 ^ w - 1 → safe_add w a b = Except.ok (a + b)) ∧
    (2 ^ w - 1 < a + b → safe_add w a b = Except.error ArithmeticError.Overflow) ∧
    safe_add 8 1 1 = Except.ok 2 ∧
    safe_add 8 255 1 = Except.error ArithmeticError.Overflow := by
  have hpos : 1 ≤ 2 ^ w := Nat.one_le_two_pow
  refine ⟨?_, ?_, rfl, rfl⟩
  · intro h
    have hlt : a + b < 2 ^ w := by omega
    simp [safe_add, checked_add, hlt]
  · intro h
    have hlt : ¬ a + b < 2 ^ w := by omega
    simp [safe_add, checked_add, hlt]

/-- C8 witness: 254 + 1 is representable in u8 and checked addition
returns 255. -/
theorem C8_witness : safe_add 8 254 1 = Except.ok 255 :=
  (C8_safe_add_spec 8 254 1).1 (by norm_num)

/-- C9: the claim asserts that over BigUint both additions agree and
always succeed (true), that neither policy's generator ever signals
exhaustion (true), and that therefore the checked and wrapping generators
emit identical sequences.  The last part fails at the third pull: the
checked generator emits 1 and the wrapping generator emits 2, because of
the statement-order slip in the wrapping branch.  This theorem evaluates
the code at the failing input. -/
theorem C9_biguint_eval :
    (∀ a b, biguint_safe_add a b = Except.ok (a + b)) ∧
    (∀ a b, biguint_unchecked_add a b = a + b) ∧
    (∀ n s, (pullAt stepCheckedBig n s).isSome = true) ∧
    (∀ n s, (pullAt stepWrappingBig n s).isSome = true) ∧
    pullAt stepCheckedBig 2 Fibonacci.new = some 1 ∧
    pullAt stepWrappingBig 2 Fibonacci.new = some 2 := by
  exact ⟨fun a b => rfl, fun a b => rfl, fun n s => rfl, fun n s => rfl,
    by decide, by decide⟩

/-- C10: the buffer filler (modelled from the spec, absent from src/),
given any length-10 buffer over the 64-bit element type, writes exactly
[0, 1, 1, 2, 3, 5, 8, 13, 21, 34]. -/
theorem C10_fill_length10 (buf : List Nat) (h : buf.length = 10) :
    fill_fibonacci_sequence 64 buf = [0, 1, 1, 2, 3, 5, 8, 13, 21, 34] := by
  unfold fill_fibonacci_sequence
  rw [h]
  decide

/-- C10 witness: filling a concrete all-zero length-10 buffer. -/
theorem C10_witness :
    fill_fibonacci_sequence 64 (List.replicate 10 0)
      = [0, 1, 1, 2, 3, 5, 8, 13, 21, 34] :=
  C10_fill_length10 (List.replicate 10 0) (by decide)
